import Mathlib

/-!
Shallow embedding of the actix-web + MongoDB user CRUD service
(`src/main.rs`) together with proofs about its handlers.

The service keeps a single collection of BSON documents.  We model a BSON
document as an association list from field names to BSON values, the
collection as a list of documents, and each HTTP handler from `src/main.rs`
as a function from the collection state (plus the parsed request data) to a
response and a new state.  JSON payloads (`serde_json::Value`) are modelled
by the inductive type `Json`; JSON numbers are modelled as unbounded
integers covering the serde `i64`/`u64` range (floating-point numbers are not
modelled).  The conversion `bson::to_bson` is modelled by `toBson`, which
fails exactly on integers outside the signed 64-bit range, matching the
driver error `UnsignedIntegerExceededRange` for `u64` values above
`i64::MAX`.
-/

/-- JSON values, after `serde_json::Value` (numbers restricted to integers,
floating-point omitted). -/
inductive Json where
  | null
  | bool (b : Bool)
  | int (n : Int)
  | str (s : String)
  | arr (elems : List Json)
  | obj (fields : List (String × Json))
deriving Repr

/-- BSON values, after `mongodb::bson::Bson` (the fragments reachable from
this service). -/
inductive Bson where
  | null
  | bool (b : Bool)
  | int64 (n : Int)
  | str (s : String)
  | arr (elems : List Bson)
  | document (fields : List (String × Bson))
deriving Repr

mutual

/-- Model of `bson::to_bson` on a `serde_json::Value`: every JSON value
converts, except that an integer outside the signed 64-bit range is
rejected (`UnsignedIntegerExceededRange`). -/
def toBson : Json → Except String Bson
  | .null => .ok .null
  | .bool b => .ok (.bool b)
  | .int n =>
      if n ≤ 2 ^ 63 - 1 ∧ -(2 ^ 63) ≤ n then .ok (.int64 n)
      else .error "unsigned integer exceeded range"
  | .str s => .ok (.str s)
  | .arr elems => (toBsonList elems).map .arr
  | .obj fields => (toBsonFields fields).map .document

/-- Elementwise `toBson` over a JSON array, failing on the first failure. -/
def toBsonList : List Json → Except String (List Bson)
  | [] => .ok []
  | v :: rest => do
      let b ← toBson v
      let bs ← toBsonList rest
      .ok (b :: bs)

/-- Fieldwise `toBson` over a JSON object, failing on the first failure. -/
def toBsonFields : List (String × Json) → Except String (List (String × Bson))
  | [] => .ok []
  | (k, v) :: rest => do
      let b ← toBson v
      let bs ← toBsonFields rest
      .ok ((k, b) :: bs)

end

/-- A BSON document: an ordered association list of fields, as in
`mongodb::bson::Document`.  Documents built by this service never repeat a
key. -/
abbrev Doc := List (String × Bson)

/-- Field access on an association list (first binding wins). -/
def assocGet {α : Type} (fields : List (String × α)) (k : String) : Option α :=
  match fields with
  | [] => none
  | (k1, v) :: rest => if k1 = k then some v else assocGet rest k

/-- Field access on a BSON document. -/
def docGet (d : Doc) (k : String) : Option Bson :=
  assocGet d k

/-- Model of `Document::insert`: replace the value in place when the key is
already present, otherwise append the new field at the end. -/
def docSet (d : Doc) (k : String) (v : Bson) : Doc :=
  match d with
  | [] => [(k, v)]
  | (k1, v1) :: rest => if k1 = k then (k, v) :: rest else (k1, v1) :: docSet rest k v

/-- Model of applying a `$set` update document: each field of the set
document is written into the target document, left to right. -/
def applySet (setDoc : Doc) (d : Doc) : Doc :=
  match setDoc with
  | [] => d
  | (k, v) :: rest => applySet rest (docSet d k v)

/-- Model of `serde_json::Value::get`: field lookup on an object, `none` on
every other JSON value. -/
def jsonGet (form : Json) (k : String) : Option Json :=
  match form with
  | .obj fields => assocGet fields k
  | _ => none

/-- Modelled from the spec: the `User` record of the missing `model.rs`
("attributes: username (string, unique identifier), first_name (string),
last_name (string), email (string)"). -/
structure User where
  username : String
  first_name : String
  last_name : String
  email : String
deriving Repr, DecidableEq

/-- Serialization of a `User` into the stored BSON document (one string
field per attribute). -/
def userToDoc (u : User) : Doc :=
  [("username", .str u.username), ("first_name", .str u.first_name),
   ("last_name", .str u.last_name), ("email", .str u.email)]

/-- Error text for a document that does not deserialize into `User`. -/
def userDeserializeError : String :=
  "invalid document for User deserialization"

/-- Deserialization of a stored document into a `User`: all four attributes
must be present with string values; extra fields are ignored (serde
default). -/
def userFromDoc (d : Doc) : Except String User :=
  match docGet d "username", docGet d "first_name",
        docGet d "last_name", docGet d "email" with
  | some (.str un), some (.str fn), some (.str ln), some (.str em) =>
      .ok { username := un, first_name := fn, last_name := ln, email := em }
  | _, _, _, _ => .error userDeserializeError

/-- State of the `users` collection of database `myApp`: the stored
documents plus whether the unique index on `username` exists. -/
structure DBState where
  docs : List Doc
  hasUniqueIndex : Bool
deriving Repr

/-- Whether a stored document matches the filter mirroring the source
filter on the username path segment: its `username` field holds exactly
the string `s`. -/
def usernameMatches (d : Doc) (s : String) : Bool :=
  match docGet d "username" with
  | some (.str t) => t == s
  | _ => false

/-- Error text of a duplicate-key rejection by the unique index. -/
def dupKeyError (s : String) : String :=
  "E11000 duplicate key error collection: myApp.users dup key: " ++ s

/-- Model of `Collection::insert_one` under the unique index on
`username`: rejected when the index exists and some stored document
already carries the same username, otherwise the serialized document is
appended. -/
def insertOne (st : DBState) (u : User) : Except String Unit × DBState :=
  if st.hasUniqueIndex && st.docs.any (fun d => usernameMatches d u.username) then
    (.error (dupKeyError u.username), st)
  else
    (.ok (), { st with docs := st.docs ++ [userToDoc u] })

/-- Model of `Collection::<User>::find_one` with the username filter: the
first matching document, deserialized into a `User` (deserialization
failure surfaces as a driver error). -/
def findOneByUsername (st : DBState) (s : String) : Except String (Option User) :=
  match st.docs.find? (fun d => usernameMatches d s) with
  | none => .ok none
  | some d => (userFromDoc d).map some

/-- Model of the cursor produced by `Collection::<User>::find` with the
empty filter: the sequence of `try_next` outcomes, one per stored
document, each either a deserialized `User` or a driver error. -/
def findAllCursor (st : DBState) : List (Except String User) :=
  st.docs.map userFromDoc

/-- Replace the first document matching username `s` by its `$set`-updated
version; `none` when no document matches. -/
def updateFirst (docs : List Doc) (s : String) (setDoc : Doc) : Option (List Doc) :=
  match docs with
  | [] => none
  | d :: rest =>
      if usernameMatches d s then some (applySet setDoc d :: rest)
      else (updateFirst rest s setDoc).map (fun ds => d :: ds)

/-- Model of `Collection::update_one` with the username filter and a
`$set` update document: returns the matched count (0 or 1) and the new
state. -/
def updateOne (st : DBState) (s : String) (setDoc : Doc) : Nat × DBState :=
  match updateFirst st.docs s setDoc with
  | some newDocs => (1, { st with docs := newDocs })
  | none => (0, st)

/-- Remove the first document matching username `s`; `none` when no
document matches. -/
def deleteFirst (docs : List Doc) (s : String) : Option (List Doc) :=
  match docs with
  | [] => none
  | d :: rest =>
      if usernameMatches d s then some rest
      else (deleteFirst rest s).map (fun ds => d :: ds)

/-- Model of `Collection::delete_one` with the username filter: returns the
deleted count (0 or 1) and the new state. -/
def deleteOne (st : DBState) (s : String) : Nat × DBState :=
  match deleteFirst st.docs s with
  | some newDocs => (1, { st with docs := newDocs })
  | none => (0, st)

/-- HTTP responses produced by the handlers.  `panicked` records a handler
that escaped by panicking instead of returning a response (the `unwrap`
in `get_users`). -/
inductive Response where
  | ok (body : String)
  | okJsonUser (u : User)
  | okJsonUsers (us : List User)
  | notFound (body : String)
  | internalError (body : String)
  | panicked (msg : String)
deriving Repr, DecidableEq

/-- HTTP status code of a response; `none` for a panic, which produces no
response at all. -/
def Response.statusCode : Response → Option Nat
  | .ok _ => some 200
  | .okJsonUser _ => some 200
  | .okJsonUsers _ => some 200
  | .notFound _ => some 404
  | .internalError _ => some 500
  | .panicked _ => none

/-- Response mapping of `add_user`: the `match result` expression of the
source handler. -/
def add_user_respond (result : Except String Unit) : Response :=
  match result with
  | .ok _ => .ok "user added"
  | .error err => .internalError err

/-- Response mapping of `get_user`: the `match` on the `find_one` outcome
in the source handler. -/
def get_user_respond (username : String) (result : Except String (Option User)) : Response :=
  match result with
  | .ok (some user) => .okJsonUser user
  | .ok none => .notFound ("No user found with username " ++ username)
  | .error err => .internalError err

/-- The `while let` loop of `get_users`: collect the cursor items,
stopping at the first erroneous `try_next` outcome.  An error here is fed
to `unwrap` by the source code. -/
def collectCursor : List (Except String User) → Except String (List User)
  | [] => .ok []
  | .ok user :: rest => (collectCursor rest).map (fun us => user :: us)
  | .error err :: _ => .error err

/-- Response mapping of `get_users`: an error from `find` itself becomes a
500; an error while iterating the cursor is passed to `unwrap`, which
panics. -/
def get_users_respond (cursor : Except String (List (Except String User))) : Response :=
  match cursor with
  | .ok items =>
      match collectCursor items with
      | .ok all_users => .okJsonUsers all_users
      | .error err => .panicked err
  | .error err => .internalError err

/-- Response mapping of `update_user`: the `match` on the `update_one`
outcome (its matched count) in the source handler. -/
def update_user_respond (username : String) (result : Except String Nat) : Response :=
  match result with
  | .ok matched_count =>
      if matched_count > 0 then .ok "User updated"
      else .notFound ("No user found with username " ++ username)
  | .error err => .internalError err

/-- Response mapping of `delete_user`: the `match` on the `delete_one`
outcome (its deleted count) in the source handler. -/
def delete_user_respond (username : String) (result : Except String Nat) : Response :=
  match result with
  | .ok deleted_count =>
      if deleted_count > 0 then .ok "User deleted"
      else .notFound ("No user found with username " ++ username)
  | .error err => .internalError err

/-- The `$set` document built by `update_user`: the three `if let` blocks
of the source, each inserting a recognized key when it is present in the
payload and `bson::to_bson` succeeds on its value. -/
def buildUpdateDoc (form : Json) : Doc :=
  let update_doc : Doc := []
  let update_doc :=
    match jsonGet form "first_name" with
    | some first_name =>
        match toBson first_name with
        | .ok bson_first_name => docSet update_doc "first_name" bson_first_name
        | .error _ => update_doc
    | none => update_doc
  let update_doc :=
    match jsonGet form "last_name" with
    | some last_name =>
        match toBson last_name with
        | .ok bson_last_name => docSet update_doc "last_name" bson_last_name
        | .error _ => update_doc
    | none => update_doc
  let update_doc :=
    match jsonGet form "email" with
    | some email =>
        match toBson email with
        | .ok bson_email => docSet update_doc "email" bson_email
        | .error _ => update_doc
    | none => update_doc
  update_doc

/-- Handler `POST /add_user`: insert the parsed `User`, answer 200 "user
added" or 500 with the error text. -/
def add_user (st : DBState) (json : User) : Response × DBState :=
  let result := insertOne st json
  (add_user_respond result.1, result.2)

/-- Handler `GET /get_user/{username}` (read-only): 200 with the JSON
user, 404 when no document matches, 500 on a driver error. -/
def get_user (st : DBState) (username : String) : Response :=
  get_user_respond username (findOneByUsername st username)

/-- Handler `GET /get_users` (read-only) on a state whose `find` call
succeeds: iterate the cursor and answer 200 with the JSON array, or panic
on an erroneous cursor item. -/
def get_users (st : DBState) : Response :=
  get_users_respond (.ok (findAllCursor st))

/-- Handler `POST /update_user/{username}`: build the `$set` document from
the payload, run `update_one`, answer 200 "User updated" or 404. -/
def update_user (st : DBState) (username : String) (form : Json) : Response × DBState :=
  let update_doc := buildUpdateDoc form
  let result := updateOne st username update_doc
  (update_user_respond username (.ok result.1), result.2)

/-- Handler `DELETE /delete_user/{username}`: run `delete_one`, answer 200
"User deleted" or 404. -/
def delete_user (st : DBState) (username : String) : Response × DBState :=
  let result := deleteOne st username
  (delete_user_respond username (.ok result.1), result.2)

/-- The collection state before startup: no documents, no index. -/
def emptyDB : DBState :=
  { docs := [], hasUniqueIndex := false }

/-- Model of `create_username_index`: on success the unique index on
`username` exists; on failure the `expect` panics with its message
prefixed to the error. -/
def create_username_index (st : DBState) (result : Except String Unit) : Except String DBState :=
  match result with
  | .ok _ => .ok { st with hasUniqueIndex := true }
  | .error err => .error ("creating an index should succeed: " ++ err)

/-- Outcome of process startup: either the HTTP listener is reached with
the database in state `st`, or the process aborted by panic first. -/
inductive StartupOutcome where
  | serving (st : DBState)
  | aborted (panicMsg : String)
deriving Repr

/-- Model of the startup sequencing in `main` after a successful connection:
`create_username_index` runs first, and only when it returns does
`HttpServer::run` start serving; its panic aborts the process. -/
def main_startup (indexResult : Except String Unit) : StartupOutcome :=
  match create_username_index emptyDB indexResult with
  | .ok st => .serving st
  | .error msg => .aborted msg

/-- The collection state a successful startup serves from: empty, with the
unique index in place. -/
def initState : DBState :=
  { docs := [], hasUniqueIndex := true }

/-- One state-changing handler invocation (the two read-only handlers do
not change the state). -/
inductive Step : DBState → DBState → Prop where
  | add (st : DBState) (u : User) : Step st (add_user st u).2
  | update (st : DBState) (username : String) (form : Json) :
      Step st (update_user st username form).2
  | delete (st : DBState) (username : String) : Step st (delete_user st username).2

/-- Collection states reachable from a successful startup by handler
invocations. -/
def Reachable (st : DBState) : Prop :=
  Relation.ReflTransGen Step initState st

/-- The `username` field of a stored document. -/
def usernameOf (d : Doc) : Option Bson :=
  docGet d "username"

/-- Invariant of reachable states: pairwise distinct usernames, every
stored document carries a string username, and the unique index exists. -/
def StateInv (st : DBState) : Prop :=
  (st.docs.map usernameOf).Nodup ∧
  (∀ d ∈ st.docs, ∃ s, usernameOf d = some (Bson.str s)) ∧
  st.hasUniqueIndex = true

/-- Sequential insertion of a list of users through the add handler. -/
def addAll (st : DBState) (us : List User) : DBState :=
  match us with
  | [] => st
  | u :: rest => addAll (add_user st u).2 rest

/-- One conditional field write of `update_user`: the shape shared by its
three `if let` blocks. -/
def maybeSetField (form : Json) (k : String) (d : Doc) : Doc :=
  match jsonGet form k with
  | some v =>
      match toBson v with
      | .ok b => docSet d k b
      | .error _ => d
  | none => d

/-- The coerced payload value the handler would store for key `k`:
present in the payload and successfully converted to BSON. -/
def optCoerced (form : Json) (k : String) : Option Bson :=
  match jsonGet form k with
  | some v => (toBson v).toOption
  | none => none

lemma docGet_docSet_self (d : Doc) (k : String) (v : Bson) :
    docGet (docSet d k v) k = some v := by
  induction d with
  | nil => simp [docSet, docGet, assocGet]
  | cons p rest ih =>
      obtain ⟨k1, v1⟩ := p
      by_cases h : k1 = k
      · simp [docSet, h, docGet, assocGet]
      · simpa [docSet, h, docGet, assocGet] using ih

lemma docGet_docSet_ne (d : Doc) (k k1 : String) (v : Bson) (h : k1 ≠ k) :
    docGet (docSet d k v) k1 = docGet d k1 := by
  induction d with
  | nil => simp [docSet, docGet, assocGet, Ne.symm h]
  | cons p rest ih =>
      obtain ⟨k2, v2⟩ := p
      by_cases h2 : k2 = k
      · subst h2
        simp [docSet, docGet, assocGet, Ne.symm h]
      · simp only [docSet, if_neg h2, docGet, assocGet] at ih ⊢
        by_cases h3 : k2 = k1
        · simp [h3]
        · simpa [h3] using ih

lemma buildUpdateDoc_eq_maybeSetField (form : Json) :
    buildUpdateDoc form =
      maybeSetField form "email"
        (maybeSetField form "last_name" (maybeSetField form "first_name" [])) := rfl

lemma maybeSetField_eq_optCoerced (form : Json) (k : String) (d : Doc) :
    maybeSetField form k d =
      match optCoerced form k with
      | some b => docSet d k b
      | none => d := by
  unfold maybeSetField optCoerced
  cases h : jsonGet form k with
  | none => rfl
  | some v =>
      cases hb : toBson v with
      | error e => simp [hb, Except.toOption]
      | ok b => simp [hb, Except.toOption]

lemma buildUpdateDoc_cases (form : Json) :
    buildUpdateDoc form =
      match optCoerced form "first_name", optCoerced form "last_name",
            optCoerced form "email" with
      | some b1, some b2, some b3 =>
          [("first_name", b1), ("last_name", b2), ("email", b3)]
      | some b1, some b2, none => [("first_name", b1), ("last_name", b2)]
      | some b1, none, some b3 => [("first_name", b1), ("email", b3)]
      | some b1, none, none => [("first_name", b1)]
      | none, some b2, some b3 => [("last_name", b2), ("email", b3)]
      | none, some b2, none => [("last_name", b2)]
      | none, none, some b3 => [("email", b3)]
      | none, none, none => [] := by
  rw [buildUpdateDoc_eq_maybeSetField, maybeSetField_eq_optCoerced,
    maybeSetField_eq_optCoerced, maybeSetField_eq_optCoerced]
  rcases optCoerced form "first_name" with _ | b1 <;>
    rcases optCoerced form "last_name" with _ | b2 <;>
    rcases optCoerced form "email" with _ | b3 <;>
    simp [docSet]

lemma docGet_buildUpdateDoc (form : Json) (k : String) :
    docGet (buildUpdateDoc form) k =
      if "first_name" = k then optCoerced form "first_name"
      else if "last_name" = k then optCoerced form "last_name"
      else if "email" = k then optCoerced form "email"
      else none := by
  rw [buildUpdateDoc_cases]
  rcases optCoerced form "first_name" with _ | b1 <;>
    rcases optCoerced form "last_name" with _ | b2 <;>
    rcases optCoerced form "email" with _ | b3 <;>
    simp only [docGet, assocGet] <;> split_ifs <;> (try subst_vars) <;> simp_all

lemma buildUpdateDoc_keys_sub (form : Json) :
    (buildUpdateDoc form).map Prod.fst ⊆ ["first_name", "last_name", "email"] := by
  rw [buildUpdateDoc_cases]
  rcases optCoerced form "first_name" with _ | b1 <;>
    rcases optCoerced form "last_name" with _ | b2 <;>
    rcases optCoerced form "email" with _ | b3 <;>
    simp [List.subset_def]

lemma buildUpdateDoc_keys (form : Json) :
    ∀ p ∈ buildUpdateDoc form,
      p.1 = "first_name" ∨ p.1 = "last_name" ∨ p.1 = "email" := by
  intro p hp
  have hk := buildUpdateDoc_keys_sub form (List.mem_map_of_mem Prod.fst hp)
  simpa using hk

lemma buildUpdateDoc_keys_nodup (form : Json) :
    ((buildUpdateDoc form).map Prod.fst).Nodup := by
  rw [buildUpdateDoc_cases]
  rcases optCoerced form "first_name" with _ | b1 <;>
    rcases optCoerced form "last_name" with _ | b2 <;>
    rcases optCoerced form "email" with _ | b3 <;>
    simp

lemma assocGet_cons_self {α : Type} (k : String) (v : α) (rest : List (String × α)) :
    assocGet ((k, v) :: rest) k = some v := by
  simp [assocGet]

lemma assocGet_cons_ne {α : Type} (k1 k : String) (v : α) (rest : List (String × α))
    (h : k1 ≠ k) :
    assocGet ((k1, v) :: rest) k = assocGet rest k := by
  simp [assocGet, h]

lemma docGet_eq_none_of_not_mem_keys (d : Doc) (k : String) (h : k ∉ d.map Prod.fst) :
    docGet d k = none := by
  induction d with
  | nil => rfl
  | cons p rest ih =>
      obtain ⟨k1, v1⟩ := p
      simp only [List.map_cons, List.mem_cons] at h
      push_neg at h
      rw [docGet, assocGet_cons_ne _ _ _ _ (Ne.symm h.1)]
      exact ih h.2

lemma docGet_applySet_of_none (sd : Doc) (d : Doc) (k : String) (h : docGet sd k = none) :
    docGet (applySet sd d) k = docGet d k := by
  induction sd generalizing d with
  | nil => rfl
  | cons p rest ih =>
      obtain ⟨k1, v1⟩ := p
      by_cases h1 : k1 = k
      · subst h1
        rw [docGet, assocGet_cons_self] at h
        exact absurd h (by simp)
      · rw [docGet, assocGet_cons_ne _ _ _ _ h1] at h
        show docGet (applySet rest (docSet d k1 v1)) k = docGet d k
        rw [ih _ h, docGet_docSet_ne _ _ _ _ (Ne.symm h1)]

lemma docGet_applySet_of_some (sd : Doc) (d : Doc) (k : String) (v : Bson)
    (hnd : (sd.map Prod.fst).Nodup) (h : docGet sd k = some v) :
    docGet (applySet sd d) k = some v := by
  induction sd generalizing d with
  | nil => exact absurd h (by simp [docGet, assocGet])
  | cons p rest ih =>
      obtain ⟨k1, v1⟩ := p
      simp only [List.map_cons, List.nodup_cons] at hnd
      by_cases h1 : k1 = k
      · subst h1
        rw [docGet, assocGet_cons_self, Option.some.injEq] at h
        subst h
        show docGet (applySet rest (docSet d k1 v1)) k1 = some v1
        rw [docGet_applySet_of_none rest _ k1
          (docGet_eq_none_of_not_mem_keys rest k1 hnd.1)]
        exact docGet_docSet_self d k1 v1
      · rw [docGet, assocGet_cons_ne _ _ _ _ h1] at h
        show docGet (applySet rest (docSet d k1 v1)) k = some v
        exact ih _ hnd.2 h

lemma docGet_applySet (sd : Doc) (d : Doc) (k : String)
    (hnd : (sd.map Prod.fst).Nodup) :
    docGet (applySet sd d) k = (docGet sd k).or (docGet d k) := by
  cases h : docGet sd k with
  | none => exact docGet_applySet_of_none _ _ _ h
  | some v => exact docGet_applySet_of_some _ _ _ _ hnd h

lemma applySet_buildUpdateDoc_username (form : Json) (d : Doc) :
    docGet (applySet (buildUpdateDoc form) d) "username" = docGet d "username" := by
  apply docGet_applySet_of_none
  rw [docGet_buildUpdateDoc]
  simp

lemma find?_append_of_all_false {α : Type} (p : α → Bool) (l1 l2 : List α)
    (h : ∀ x ∈ l1, p x = false) :
    List.find? p (l1 ++ l2) = List.find? p l2 := by
  induction l1 with
  | nil => rfl
  | cons a rest ih =>
      rw [List.cons_append, List.find?_cons_of_neg]
      · exact ih (fun x hx => h x (List.mem_cons_of_mem a hx))
      · simp [h a (List.mem_cons_self a rest)]

lemma updateFirst_eq_none (docs : List Doc) (s : String) (sd : Doc)
    (h : docs.any (fun d => usernameMatches d s) = false) :
    updateFirst docs s sd = none := by
  induction docs with
  | nil => rfl
  | cons d rest ih =>
      simp only [List.any_cons, Bool.or_eq_false_iff] at h
      simp [updateFirst, h.1, ih h.2]

lemma deleteFirst_eq_none (docs : List Doc) (s : String)
    (h : docs.any (fun d => usernameMatches d s) = false) :
    deleteFirst docs s = none := by
  induction docs with
  | nil => rfl
  | cons d rest ih =>
      simp only [List.any_cons, Bool.or_eq_false_iff] at h
      simp [deleteFirst, h.1, ih h.2]

lemma updateFirst_map_username (docs : List Doc) (s : String) (sd : Doc)
    (hu : docGet sd "username" = none) (docsNew : List Doc)
    (h : updateFirst docs s sd = some docsNew) :
    docsNew.map usernameOf = docs.map usernameOf := by
  induction docs generalizing docsNew with
  | nil => exact absurd h (by simp [updateFirst])
  | cons d rest ih =>
      by_cases hm : usernameMatches d s
      · simp only [updateFirst, if_pos hm, Option.some.injEq] at h
        subst h
        simp [List.map_cons, usernameOf, docGet_applySet_of_none _ _ _ hu]
      · cases hr : updateFirst rest s sd with
        | none => simp [updateFirst, if_neg hm, hr] at h
        | some ds =>
            simp only [updateFirst, if_neg hm, hr] at h
            simp only [Option.map, Option.some.injEq] at h
            subst h
            simp [List.map_cons, ih _ hr]

lemma deleteFirst_sublist (docs : List Doc) (s : String) (docsNew : List Doc)
    (h : deleteFirst docs s = some docsNew) :
    docsNew.Sublist docs := by
  induction docs generalizing docsNew with
  | nil => exact absurd h (by simp [deleteFirst])
  | cons d rest ih =>
      by_cases hm : usernameMatches d s
      · simp only [deleteFirst, if_pos hm, Option.some.injEq] at h
        subst h
        exact (List.Sublist.refl rest).cons d
      · cases hr : deleteFirst rest s with
        | none => simp [deleteFirst, if_neg hm, hr] at h
        | some ds =>
            simp only [deleteFirst, if_neg hm, hr] at h
            simp only [Option.map, Option.some.injEq] at h
            subst h
            exact (ih _ hr).cons₂ d

lemma usernameOf_userToDoc (u : User) :
    usernameOf (userToDoc u) = some (Bson.str u.username) := rfl

lemma usernameMatches_of_usernameOf (d : Doc) (s : String)
    (hu : usernameOf d = some (Bson.str s)) :
    usernameMatches d s = true := by
  unfold usernameMatches
  rw [show docGet d "username" = some (Bson.str s) from hu]
  simp

lemma any_usernameMatches_of_mem (docs : List Doc) (d : Doc) (s : String)
    (hd : d ∈ docs) (hu : usernameOf d = some (Bson.str s)) :
    docs.any (fun d => usernameMatches d s) = true :=
  List.any_eq_true.mpr ⟨d, hd, usernameMatches_of_usernameOf d s hu⟩

lemma stateInv_add (st : DBState) (u : User) (hInv : StateInv st) :
    StateInv (add_user st u).2 := by
  obtain ⟨hnd, hstr, hidx⟩ := hInv
  show StateInv (insertOne st u).2
  unfold insertOne
  by_cases hg : (st.hasUniqueIndex && st.docs.any fun d => usernameMatches d u.username) = true
  · simp only [if_pos hg]
    exact ⟨hnd, hstr, hidx⟩
  · simp only [if_neg hg]
    have hany : st.docs.any (fun d => usernameMatches d u.username) = false := by
      rw [hidx] at hg
      simpa using hg
    refine ⟨?_, ?_, hidx⟩
    · rw [List.map_append]
      refine List.Nodup.append hnd (by simp) ?_
      intro a ha ha2
      simp only [List.map_cons, List.map_nil, List.mem_singleton,
        usernameOf_userToDoc] at ha2
      subst ha2
      obtain ⟨d, hd, he⟩ := List.mem_map.mp ha
      rw [any_usernameMatches_of_mem st.docs d u.username hd he] at hany
      exact Bool.true_eq_false.mp hany
    · intro d hd
      rcases List.mem_append.mp hd with hd | hd
      · exact hstr d hd
      · rw [List.mem_singleton.mp hd]
        exact ⟨u.username, rfl⟩

lemma stateInv_update (st : DBState) (username : String) (form : Json)
    (hInv : StateInv st) :
    StateInv (update_user st username form).2 := by
  obtain ⟨hnd, hstr, hidx⟩ := hInv
  show StateInv (updateOne st username (buildUpdateDoc form)).2
  unfold updateOne
  cases hr : updateFirst st.docs username (buildUpdateDoc form) with
  | none => exact ⟨hnd, hstr, hidx⟩
  | some docsNew =>
      have hmap : docsNew.map usernameOf = st.docs.map usernameOf :=
        updateFirst_map_username _ _ _ (by rw [docGet_buildUpdateDoc]; simp) _ hr
      refine ⟨?_, ?_, hidx⟩
      · show (docsNew.map usernameOf).Nodup
        rw [hmap]
        exact hnd
      · intro d hd
        have hmem : usernameOf d ∈ docsNew.map usernameOf := List.mem_map_of_mem _ hd
        rw [hmap] at hmem
        obtain ⟨d0, hd0, he⟩ := List.mem_map.mp hmem
        obtain ⟨s0, hs0⟩ := hstr d0 hd0
        exact ⟨s0, he ▸ hs0⟩

lemma stateInv_delete (st : DBState) (username : String) (hInv : StateInv st) :
    StateInv (delete_user st username).2 := by
  obtain ⟨hnd, hstr, hidx⟩ := hInv
  show StateInv (deleteOne st username).2
  unfold deleteOne
  cases hr : deleteFirst st.docs username with
  | none => exact ⟨hnd, hstr, hidx⟩
  | some docsNew =>
      have hsub : docsNew.Sublist st.docs := deleteFirst_sublist _ _ _ hr
      refine ⟨?_, ?_, hidx⟩
      · exact List.Nodup.sublist (hsub.map usernameOf) hnd
      · intro d hd
        exact hstr d (hsub.subset hd)

lemma stateInv_initState : StateInv initState :=
  ⟨List.nodup_nil, fun d hd => absurd hd (List.not_mem_nil d), rfl⟩

lemma reachable_stateInv (st : DBState) (h : Reachable st) : StateInv st := by
  induction h with
  | refl => exact stateInv_initState
  | tail hsteps hstep ih =>
      cases hstep with
      | add u => exact stateInv_add _ _ ih
      | update username form => exact stateInv_update _ _ _ ih
      | delete username => exact stateInv_delete _ _ ih

lemma userFromDoc_userToDoc (u : User) : userFromDoc (userToDoc u) = .ok u := rfl

lemma add_user_ok (st : DBState) (u : User)
    (h : (add_user st u).1 = .ok "user added") :
    (st.hasUniqueIndex && st.docs.any fun d => usernameMatches d u.username) = false ∧
    (add_user st u).2 = { st with docs := st.docs ++ [userToDoc u] } := by
  by_cases hg : (st.hasUniqueIndex && st.docs.any fun d => usernameMatches d u.username) = true
  · exfalso
    simp [add_user, insertOne, hg, add_user_respond] at h
  · have hg2 : (st.hasUniqueIndex && st.docs.any fun d => usernameMatches d u.username) = false :=
      Bool.not_eq_true _ ▸ Bool.of_not_eq_true hg
    exact ⟨hg2, by simp [add_user, insertOne, hg2]⟩

lemma add_user_dup (st : DBState) (u : User)
    (hg : (st.hasUniqueIndex && st.docs.any fun d => usernameMatches d u.username)
      = true) :
    add_user st u = (.internalError (dupKeyError u.username), st) := by
  show (add_user_respond (insertOne st u).1, (insertOne st u).2) = _
  unfold insertOne
  rw [if_pos hg]
  rfl

lemma usernameMatches_userToDoc (u : User) (s : String) :
    usernameMatches (userToDoc u) s = (u.username == s) := rfl

lemma get_user_append_single (st : DBState) (u : User)
    (hany : st.docs.any (fun d => usernameMatches d u.username) = false) :
    get_user { st with docs := st.docs ++ [userToDoc u] } u.username = .okJsonUser u := by
  unfold get_user findOneByUsername
  have hfind :
      List.find? (fun d => usernameMatches d u.username)
          (st.docs ++ [userToDoc u]) = some (userToDoc u) := by
    rw [find?_append_of_all_false _ _ _
      (fun d hd => by
        rcases List.any_eq_false.mp (by simpa using hany) d hd with h
        simpa using h)]
    rw [List.find?_cons_of_pos]
    simp [usernameMatches_userToDoc]
  rw [show ({ st with docs := st.docs ++ [userToDoc u] } : DBState).docs
      = st.docs ++ [userToDoc u] from rfl, hfind]
  show get_user_respond u.username (Except.map some (userFromDoc (userToDoc u)))
      = Response.okJsonUser u
  rw [userFromDoc_userToDoc]
  rfl

lemma updateFirst_append (pre : List Doc) (d : Doc) (rest : List Doc) (s : String)
    (sd : Doc) (hpre : ∀ d0 ∈ pre, usernameMatches d0 s = false)
    (hd : usernameMatches d s = true) :
    updateFirst (pre ++ d :: rest) s sd = some (pre ++ applySet sd d :: rest) := by
  induction pre with
  | nil => simp [updateFirst, hd]
  | cons d1 pre1 ih =>
      have h1 : usernameMatches d1 s = false := hpre d1 (List.mem_cons_self d1 pre1)
      simp [updateFirst, h1, ih (fun d0 hd0 => hpre d0 (List.mem_cons_of_mem d1 hd0))]

lemma updateFirst_empty_setDoc (docs : List Doc) (s : String)
    (h : docs.any (fun d => usernameMatches d s) = true) :
    updateFirst docs s [] = some docs := by
  induction docs with
  | nil => simp at h
  | cons d rest ih =>
      by_cases hm : usernameMatches d s
      · simp [updateFirst, hm, applySet]
      · have hr : rest.any (fun d => usernameMatches d s) = true := by
          simpa [List.any_cons, hm] using h
        simp [updateFirst, hm, ih hr]

lemma collectCursor_map_ok (us : List User) :
    collectCursor (us.map (fun u => Except.ok u)) = .ok us := by
  induction us with
  | nil => rfl
  | cons u rest ih => simp [collectCursor, ih, Except.map]

lemma collectCursor_error (us : List User) (err : String)
    (rest : List (Except String User)) :
    collectCursor (us.map (fun u => Except.ok u) ++ .error err :: rest) = .error err := by
  induction us with
  | nil => rfl
  | cons u us1 ih => simp [collectCursor, ih, Except.map]

lemma addAll_docs (us : List User) (st : DBState)
    (hidx : st.hasUniqueIndex = true)
    (hfresh : ∀ u ∈ us, st.docs.any (fun d => usernameMatches d u.username) = false)
    (hnd : (us.map User.username).Nodup) :
    (addAll st us).docs = st.docs ++ us.map userToDoc ∧
    (addAll st us).hasUniqueIndex = true := by
  induction us generalizing st with
  | nil => simp [addAll, hidx]
  | cons u rest ih =>
      have hg : (st.hasUniqueIndex && st.docs.any fun d => usernameMatches d u.username)
          = false := by
        rw [hidx, hfresh u (List.mem_cons_self u rest)]
        simp
      have hstep : (add_user st u).2 = { st with docs := st.docs ++ [userToDoc u] } := by
        simp [add_user, insertOne, hg]
      simp only [List.map_cons, List.nodup_cons] at hnd
      show (addAll (add_user st u).2 rest).docs = st.docs ++ (u :: rest).map userToDoc ∧
        (addAll (add_user st u).2 rest).hasUniqueIndex = true
      rw [hstep]
      obtain ⟨ha, hb⟩ := ih { st with docs := st.docs ++ [userToDoc u] } hidx
        (by
          intro u1 hu1
          show (st.docs ++ [userToDoc u]).any (fun d => usernameMatches d u1.username) = false
          rw [List.any_append]
          have h1 := hfresh u1 (List.mem_cons_of_mem u hu1)
          have h2 : usernameMatches (userToDoc u) u1.username = false := by
            rw [usernameMatches_userToDoc]
            exact beq_eq_false_iff_ne.mpr
              (fun he => hnd.1 (he ▸ List.mem_map_of_mem User.username hu1))
          simp [h1, h2])
        hnd.2
      refine ⟨?_, hb⟩
      rw [ha]
      simp [List.append_assoc]

/-- C1: inserting a valid user through the add handler from any reachable
state, when the insert succeeds, and then getting by its username returns
the same user value. -/
theorem c1_add_then_get (st : DBState) (u : User) (hreach : Reachable st)
    (hok : (add_user st u).1 = .ok "user added") :
    get_user (add_user st u).2 u.username = .okJsonUser u := by
  obtain ⟨hnd, hstr, hidx⟩ := reachable_stateInv st hreach
  obtain ⟨hg, hst⟩ := add_user_ok st u hok
  rw [hidx, Bool.true_and] at hg
  rw [hst]
  exact get_user_append_single st u hg

/-- C1 witness: the round trip at a concrete user on the startup state. -/
theorem c1_witness :
    Reachable initState ∧
    (add_user initState ⟨"a", "X", "Y", "e@x.com"⟩).1 = .ok "user added" ∧
    get_user (add_user initState ⟨"a", "X", "Y", "e@x.com"⟩).2 "a"
      = .okJsonUser ⟨"a", "X", "Y", "e@x.com"⟩ :=
  ⟨Relation.ReflTransGen.refl, rfl,
    c1_add_then_get initState ⟨"a", "X", "Y", "e@x.com"⟩ Relation.ReflTransGen.refl rfl⟩

/-- C2: in every reachable state the stored usernames are pairwise
distinct; inserting two distinct users with the same username makes the
second insert fail with the duplicate-key error, and a get afterwards
returns the first-inserted value. -/
theorem c2_unique_username (st : DBState) (hreach : Reachable st) :
    (st.docs.map usernameOf).Nodup ∧
    ∀ u1 u2 : User, u1 ≠ u2 → u1.username = u2.username →
      (add_user st u1).1 = .ok "user added" →
      (add_user (add_user st u1).2 u2).1 = .internalError (dupKeyError u2.username) ∧
      get_user (add_user (add_user st u1).2 u2).2 u1.username = .okJsonUser u1 := by
  obtain ⟨hnd, hstr, hidx⟩ := reachable_stateInv st hreach
  refine ⟨hnd, ?_⟩
  intro u1 u2 hne hu hok
  obtain ⟨hg, hst⟩ := add_user_ok st u1 hok
  rw [hidx, Bool.true_and] at hg
  have hmatch : usernameMatches (userToDoc u1) u2.username = true := by
    rw [usernameMatches_userToDoc, hu]
    exact beq_self_eq_true u2.username
  have hdup := add_user_dup
    { docs := st.docs ++ [userToDoc u1], hasUniqueIndex := st.hasUniqueIndex } u2
    (by
      show (st.hasUniqueIndex &&
        (st.docs ++ [userToDoc u1]).any fun d => usernameMatches d u2.username) = true
      rw [hidx, List.any_append, Bool.true_and]
      simp [hmatch])
  constructor
  · rw [hst, hdup]
  · rw [hst, hdup]
    exact get_user_append_single st u1 hg

/-- C2 witness: two concrete users sharing a username on the startup
state. -/
theorem c2_witness :
    (add_user (add_user initState ⟨"a", "X", "Y", "e@x.com"⟩).2
        ⟨"a", "P", "Q", "r@x.com"⟩).1 = .internalError (dupKeyError "a") ∧
    get_user (add_user (add_user initState ⟨"a", "X", "Y", "e@x.com"⟩).2
        ⟨"a", "P", "Q", "r@x.com"⟩).2 "a" = .okJsonUser ⟨"a", "X", "Y", "e@x.com"⟩ :=
  (c2_unique_username initState Relation.ReflTransGen.refl).2
    ⟨"a", "X", "Y", "e@x.com"⟩ ⟨"a", "P", "Q", "r@x.com"⟩ (by decide) rfl rfl

/-- C3 counterexample: the payload carries "last_name" (a JSON integer
above the signed 64-bit range, which serde accepts but `bson::to_bson`
rejects); the update responds 200 yet the stored last_name keeps its old
value instead of being overwritten, so a present allow-listed field is
not always overwritten as the claim states. -/
theorem c3_counterexample :
    jsonGet (.obj [("last_name", .int (2 ^ 63))]) "last_name"
      = some (.int (2 ^ 63)) ∧
    (update_user (add_user initState ⟨"a", "X", "Y", "e@x.com"⟩).2 "a"
        (.obj [("last_name", .int (2 ^ 63))])).1 = .ok "User updated" ∧
    get_user (update_user (add_user initState ⟨"a", "X", "Y", "e@x.com"⟩).2 "a"
        (.obj [("last_name", .int (2 ^ 63))])).2 "a"
      = .okJsonUser ⟨"a", "X", "Y", "e@x.com"⟩ :=
  ⟨rfl, rfl, rfl⟩

/-- C3 (amended): for an existing user, the update overwrites exactly the
allow-listed fields that are present in the payload and whose values
convert to BSON (an out-of-range integer fails conversion and leaves the
field unmodified), leaves absent allow-listed fields unmodified, and
silently ignores every payload key outside the allow-list. -/
theorem c3_update_allowlist (st : DBState) (username : String) (form : Json)
    (pre : List Doc) (d : Doc) (rest : List Doc)
    (hdocs : st.docs = pre ++ d :: rest)
    (hpre : ∀ d0 ∈ pre, usernameMatches d0 username = false)
    (hd : usernameMatches d username = true) :
    (update_user st username form).1 = .ok "User updated" ∧
    (update_user st username form).2.docs
      = pre ++ applySet (buildUpdateDoc form) d :: rest ∧
    (∀ k, (k = "first_name" ∨ k = "last_name" ∨ k = "email") →
      docGet (applySet (buildUpdateDoc form) d) k
        = (optCoerced form k).or (docGet d k)) ∧
    (∀ k, k ≠ "first_name" → k ≠ "last_name" → k ≠ "email" →
      docGet (applySet (buildUpdateDoc form) d) k = docGet d k) := by
  have hupd : updateFirst st.docs username (buildUpdateDoc form)
      = some (pre ++ applySet (buildUpdateDoc form) d :: rest) := by
    rw [hdocs]
    exact updateFirst_append pre d rest username _ hpre hd
  refine ⟨?_, ?_, ?_, ?_⟩
  · show update_user_respond username
      (.ok (updateOne st username (buildUpdateDoc form)).1) = _
    unfold updateOne
    rw [hupd]
    rfl
  · show (updateOne st username (buildUpdateDoc form)).2.docs = _
    unfold updateOne
    rw [hupd]
  · intro k hk
    rw [docGet_applySet _ _ _ (buildUpdateDoc_keys_nodup form), docGet_buildUpdateDoc]
    rcases hk with rfl | rfl | rfl <;> simp
  · intro k h1 h2 h3
    rw [docGet_applySet_of_none _ _ _
      (by
        rw [docGet_buildUpdateDoc]
        rw [if_neg (Ne.symm h1), if_neg (Ne.symm h2), if_neg (Ne.symm h3)])]

/-- C3 witness: the example from the spec; updating user a with last_name Z
overwrites last_name and leaves username untouched. -/
theorem c3_witness :
    (update_user (add_user initState ⟨"a", "X", "Y", "e@x.com"⟩).2 "a"
        (.obj [("last_name", .str "Z")])).1 = .ok "User updated" ∧
    docGet (applySet (buildUpdateDoc (.obj [("last_name", .str "Z")]))
        (userToDoc ⟨"a", "X", "Y", "e@x.com"⟩)) "last_name"
      = (optCoerced (.obj [("last_name", .str "Z")]) "last_name").or
          (docGet (userToDoc ⟨"a", "X", "Y", "e@x.com"⟩) "last_name") ∧
    docGet (applySet (buildUpdateDoc (.obj [("last_name", .str "Z")]))
        (userToDoc ⟨"a", "X", "Y", "e@x.com"⟩)) "username"
      = docGet (userToDoc ⟨"a", "X", "Y", "e@x.com"⟩) "username" := by
  have h := c3_update_allowlist (add_user initState ⟨"a", "X", "Y", "e@x.com"⟩).2 "a"
    (.obj [("last_name", .str "Z")]) [] (userToDoc ⟨"a", "X", "Y", "e@x.com"⟩) []
    rfl (by simp) rfl
  exact ⟨h.1, h.2.2.1 "last_name" (Or.inr (Or.inl rfl)),
    h.2.2.2 "username" (by decide) (by decide) (by decide)⟩

/-- C4: update and delete on a username matching no stored document return
404 with the body embedding the username, and leave the state unchanged. -/
theorem c4_not_found (st : DBState) (username : String) (form : Json)
    (h : st.docs.any (fun d => usernameMatches d username) = false) :
    update_user st username form
      = (.notFound ("No user found with username " ++ username), st) ∧
    delete_user st username
      = (.notFound ("No user found with username " ++ username), st) := by
  constructor
  · show (update_user_respond username
        (.ok (updateOne st username (buildUpdateDoc form)).1),
      (updateOne st username (buildUpdateDoc form)).2) = _
    unfold updateOne
    rw [updateFirst_eq_none _ _ _ h]
    rfl
  · show (delete_user_respond username (.ok (deleteOne st username).1),
      (deleteOne st username).2) = _
    unfold deleteOne
    rw [deleteFirst_eq_none _ _ h]
    rfl

/-- C4 witness: a concrete missing username on the startup state. -/
theorem c4_witness :
    update_user initState "ghost" (.obj [])
      = (.notFound ("No user found with username " ++ "ghost"), initState) ∧
    delete_user initState "ghost"
      = (.notFound ("No user found with username " ++ "ghost"), initState) :=
  c4_not_found initState "ghost" (.obj []) rfl

/-- C5: get_users on the empty startup collection returns status 200 with
the empty array, and after adding a list of users with pairwise distinct
usernames it returns exactly those users. -/
theorem c5_get_users (us : List User) (hnd : (us.map User.username).Nodup) :
    get_users initState = .okJsonUsers [] ∧
    (get_users initState).statusCode = some 200 ∧
    get_users (addAll initState us) = .okJsonUsers us := by
  refine ⟨rfl, rfl, ?_⟩
  obtain ⟨hdocs, _⟩ := addAll_docs us initState rfl (fun u hu => rfl) hnd
  show get_users_respond (.ok (findAllCursor (addAll initState us))) = _
  unfold findAllCursor
  rw [hdocs]
  show get_users_respond
    (.ok (List.map userFromDoc (List.map userToDoc us))) = _
  rw [List.map_map]
  have hmap : List.map (userFromDoc ∘ userToDoc) us = us.map (fun u => Except.ok u) :=
    List.map_congr_left (fun u hu => userFromDoc_userToDoc u)
  rw [hmap]
  show (match collectCursor (us.map (fun u => Except.ok u)) with
    | Except.ok all_users => Response.okJsonUsers all_users
    | Except.error err => Response.panicked err) = Response.okJsonUsers us
  rw [collectCursor_map_ok]

/-- C5 witness: two concrete users with distinct usernames. -/
theorem c5_witness :
    (([⟨"a", "X", "Y", "e@x.com"⟩, ⟨"b", "P", "Q", "r@x.com"⟩] : List User).map
      User.username).Nodup ∧
    get_users (addAll initState
        [⟨"a", "X", "Y", "e@x.com"⟩, ⟨"b", "P", "Q", "r@x.com"⟩])
      = .okJsonUsers [⟨"a", "X", "Y", "e@x.com"⟩, ⟨"b", "P", "Q", "r@x.com"⟩] :=
  ⟨by decide, (c5_get_users _ (by decide)).2.2⟩

/-- C6 counterexample: from a reachable state (add a user, then update its
email to the number 42) the get_users cursor iteration fails on the
non-deserializable document and the handler panics (no status code at
all) instead of answering 500 as the claim states. -/
theorem c6_counterexample :
    Reachable (update_user (add_user initState ⟨"a", "X", "Y", "e@x.com"⟩).2 "a"
      (.obj [("email", .int 42)])).2 ∧
    get_users (update_user (add_user initState ⟨"a", "X", "Y", "e@x.com"⟩).2 "a"
        (.obj [("email", .int 42)])).2 = .panicked userDeserializeError ∧
    (get_users (update_user (add_user initState ⟨"a", "X", "Y", "e@x.com"⟩).2 "a"
        (.obj [("email", .int 42)])).2).statusCode = none :=
  ⟨Relation.ReflTransGen.tail
      (Relation.ReflTransGen.tail Relation.ReflTransGen.refl
        (Step.add initState ⟨"a", "X", "Y", "e@x.com"⟩))
      (Step.update (add_user initState ⟨"a", "X", "Y", "e@x.com"⟩).2 "a"
        (.obj [("email", .int 42)])),
    rfl, rfl⟩

/-- C6 (amended): every database-call error outcome is translated by its
handler into a 500 response carrying the raw error text, with one
exception: an error from a get_users cursor iteration step is fed to
unwrap and the handler panics instead of answering 500. -/
theorem c6_error_translation (err username : String) :
    add_user_respond (.error err) = .internalError err ∧
    get_user_respond username (.error err) = .internalError err ∧
    get_users_respond (.error err) = .internalError err ∧
    update_user_respond username (.error err) = .internalError err ∧
    delete_user_respond username (.error err) = .internalError err ∧
    (Response.internalError err).statusCode = some 500 ∧
    ∀ (us : List User) (rest : List (Except String User)),
      get_users_respond (.ok (us.map (fun u => Except.ok u) ++ .error err :: rest))
        = .panicked err := by
  refine ⟨rfl, rfl, rfl, rfl, rfl, rfl, ?_⟩
  intro us rest
  show (match collectCursor (us.map (fun u => Except.ok u) ++ .error err :: rest) with
    | Except.ok all_users => Response.okJsonUsers all_users
    | Except.error err => Response.panicked err) = Response.panicked err
  rw [collectCursor_error]

/-- C7: a payload with none of the recognized fields yields an empty set
document; the update is still issued and, when the username matches a
stored document, responds 200 "User updated" and leaves the state
unchanged. -/
theorem c7_empty_set_doc (st : DBState) (username : String) (form : Json)
    (h1 : jsonGet form "first_name" = none)
    (h2 : jsonGet form "last_name" = none)
    (h3 : jsonGet form "email" = none) :
    buildUpdateDoc form = [] ∧
    ((st.docs.any fun d => usernameMatches d username) = true →
      update_user st username form = (.ok "User updated", st)) := by
  have hbd : buildUpdateDoc form = [] := by
    rw [buildUpdateDoc_cases]
    simp [optCoerced, h1, h2, h3]
  refine ⟨hbd, ?_⟩
  intro hex
  show (update_user_respond username
      (.ok (updateOne st username (buildUpdateDoc form)).1),
    (updateOne st username (buildUpdateDoc form)).2) = _
  rw [hbd]
  unfold updateOne
  rw [updateFirst_empty_setDoc _ _ hex]
  rfl

/-- C7 witness: an unrecognized key on an existing user. -/
theorem c7_witness :
    buildUpdateDoc (.obj [("nickname", .str "ace")]) = [] ∧
    update_user (add_user initState ⟨"a", "X", "Y", "e@x.com"⟩).2 "a"
        (.obj [("nickname", .str "ace")])
      = (.ok "User updated", (add_user initState ⟨"a", "X", "Y", "e@x.com"⟩).2) :=
  ⟨(c7_empty_set_doc initState "a" (.obj [("nickname", .str "ace")]) rfl rfl rfl).1,
    (c7_empty_set_doc (add_user initState ⟨"a", "X", "Y", "e@x.com"⟩).2 "a"
      (.obj [("nickname", .str "ace")]) rfl rfl rfl).2 rfl⟩

/-- C8 counterexample: the payload maps "email" to the JSON number 42; the
claim predicts the non-string value cannot be coerced to the declared string
type of the field and is dropped, but the handler stores it in the set-document as the
BSON Int64 42. -/
theorem c8_counterexample :
    buildUpdateDoc (.obj [("email", .int 42)]) = [("email", .int64 42)] ∧
    docGet (buildUpdateDoc (.obj [("email", .int 42)])) "email"
      = some (.int64 42) :=
  ⟨rfl, rfl⟩

/-- C8 (amended): the handler builds the set-document from exactly the
present, recognized keys whose values convert to BSON, storing each
converted BSON value verbatim; no coercion to string happens and a
convertible non-string value is stored rather than dropped. -/
theorem c8_set_doc_fields (form : Json) :
    (buildUpdateDoc form).map Prod.fst ⊆ ["first_name", "last_name", "email"] ∧
    ∀ k, (k = "first_name" ∨ k = "last_name" ∨ k = "email") →
      docGet (buildUpdateDoc form) k = optCoerced form k := by
  refine ⟨buildUpdateDoc_keys_sub form, ?_⟩
  intro k hk
  rw [docGet_buildUpdateDoc]
  rcases hk with rfl | rfl | rfl <;> simp

/-- C8 witness: the set-document field for "email" equals the coerced
payload value at a concrete payload. -/
theorem c8_witness :
    docGet (buildUpdateDoc (.obj [("email", .int 42)])) "email"
      = optCoerced (.obj [("email", .int 42)]) "email" :=
  (c8_set_doc_fields (.obj [("email", .int 42)])).2 "email" (Or.inr (Or.inr rfl))

/-- C9: a failed index creation aborts startup with the expect message, and
every run that reaches the serving state did create the unique index first
(serving always starts with the index present on the empty collection). -/
theorem c9_startup (err : String) :
    main_startup (.error err)
      = .aborted ("creating an index should succeed: " ++ err) ∧
    ∀ (r : Except String Unit) (st : DBState),
      main_startup r = .serving st → st.hasUniqueIndex = true ∧ st.docs = [] := by
  refine ⟨rfl, ?_⟩
  intro r st h
  cases r with
  | ok u =>
      rw [show main_startup (.ok u)
        = .serving { docs := [], hasUniqueIndex := true } from rfl] at h
      injection h with h
      rw [← h]
      exact ⟨rfl, rfl⟩
  | error e =>
      rw [show main_startup (.error e)
        = .aborted ("creating an index should succeed: " ++ e) from rfl] at h
      exact absurd h (by simp)

/-- C9 witness: a concrete failing run aborts, and the successful run
serves with the index present. -/
theorem c9_witness :
    main_startup (.error "network down")
      = .aborted ("creating an index should succeed: " ++ "network down") ∧
    initState.hasUniqueIndex = true ∧ initState.docs = [] :=
  ⟨(c9_startup "network down").1,
    (c9_startup "network down").2 (.ok ()) initState rfl⟩

/-- C10: the set-document built from any payload only carries allow-listed
keys (never "username"), so an update request leaves the username field of
every stored document unchanged. -/
theorem c10_username_invariant (form : Json) :
    (buildUpdateDoc form).map Prod.fst ⊆ ["first_name", "last_name", "email"] ∧
    ∀ (st : DBState) (username : String),
      (update_user st username form).2.docs.map usernameOf
        = st.docs.map usernameOf := by
  refine ⟨buildUpdateDoc_keys_sub form, ?_⟩
  intro st username
  show ((updateOne st username (buildUpdateDoc form)).2.docs.map usernameOf) = _
  unfold updateOne
  cases hr : updateFirst st.docs username (buildUpdateDoc form) with
  | none => rfl
  | some docsNew =>
      exact updateFirst_map_username _ _ _
        (by rw [docGet_buildUpdateDoc]; simp) _ hr

/-- C10 witness: a payload that even contains a "username" key leaves all
stored usernames unchanged. -/
theorem c10_witness :
    (update_user (add_user initState ⟨"a", "X", "Y", "e@x.com"⟩).2 "a"
        (.obj [("username", .str "b"), ("first_name", .str "Q")])).2.docs.map
        usernameOf
      = (add_user initState ⟨"a", "X", "Y", "e@x.com"⟩).2.docs.map usernameOf :=
  (c10_username_invariant
    (.obj [("username", .str "b"), ("first_name", .str "Q")])).2 _ "a"
